import Mathlib

/-! Verification of the ASN.1 BER/DER → JSONL decoder.

Shallow embedding of `src/src/main.rs` (an ASN.1 DER/BER decoder driven by a
compiled schema, emitting JSON lines).  Byte buffers are modelled as
`List Nat` (each element a byte value), borrowed slices as sub-lists computed
by `byteSlice`, `HashMap`s as association lists looked up with `List.lookup`,
and the output `Write` sink as a returned `String`.

Rust machine integers are modelled as `Nat` with explicit wrap-around
(`% 2 ^ 32` for `u32`, `% 2 ^ 64` for `usize`) at the operations where the
source can overflow (`<<` discards high bits in both debug and release
builds).  The one place where the source performs a *checked-in-debug* /
*wrapping-in-release* addition (`offset + length` against the buffer end in
`parse_tlv`) is modelled twice: `parse_tlv` below uses exact `Nat` addition
(the overrun check then always takes the `None` branch, which is the
documented intent), and `parse_tlv_value_range_usize` reproduces the modular
`usize` arithmetic of a release build to exhibit the resulting out-of-bounds
slice (see claim C7).

Loops are modelled by structural recursion on an explicit fuel argument so
that every definition is executable by kernel reduction; wrappers supply a
fuel that dominates the loop's actual iteration count (each loop strictly
advances an offset bounded by the buffer length).
-/

/-- Tag key `(class, number)` — `type TagKey = (u8, u32)` (main.rs:46). -/
abbrev TagKey := Nat × Nat

/-- `const SYNTH_CHOICE_BASE: u32 = 0xFFFF_FF00` (main.rs:47). -/
def SYNTH_CHOICE_BASE : Nat := 0xFFFFFF00

/-- `fn is_synth_choice_tag(t: u32) -> bool { t >= SYNTH_CHOICE_BASE }` (main.rs:50). -/
def is_synth_choice_tag (t : Nat) : Bool := decide (SYNTH_CHOICE_BASE ≤ t)

/-- `struct FieldSpec` (main.rs:55). -/
structure FieldSpec where
  name : String
  field_type : String
  optional : Bool
  is_sequence_of : Bool
  is_set_of : Bool
deriving DecidableEq

/-- `struct Asn1Schema` (main.rs:65); each `HashMap` becomes an association
list (lookup by key via `List.lookup`; iteration-order-dependent steps in the
source either sort first or compute an order-independent result, see the
individual models). -/
structure Asn1Schema where
  choices : List (String × List (TagKey × (String × String)))
  sequences : List (String × List (TagKey × FieldSpec))
  sets : List (String × List (TagKey × FieldSpec))
  seq_of_types : List (String × String)
  set_of_types : List (String × String)
  primitives : List (String × String)
  aliases : List (String × String)
  type_outer_tag : List (String × TagKey)
deriving DecidableEq

/-- `struct Tlv` (main.rs:366); the borrowed slices `value` and `raw` are
materialised sub-lists of the input buffer. -/
structure Tlv where
  tag_class : Nat
  constructed : Bool
  tag_num : Nat
  length : Nat
  value : List Nat
  raw : List Nat
deriving DecidableEq

/-- The slice `&data[a..b]` of a byte buffer (empty when `b ≤ a`, as the
source never forms a slice with `b < a` without panicking). -/
def byteSlice (data : List Nat) (a b : Nat) : List Nat :=
  (data.drop a).take (b - a)

/-- The base-128 high-tag-number loop shared by `parse_tlv` (main.rs:517-526)
and `find_eoc` (main.rs:443-452): consume continuation octets while the high
bit is set, accumulating into a `u32` (high bits of the `<<` are discarded,
hence the `% 2 ^ 32`).  Returns the accumulated tag number and the offset
after the last octet consumed.  `fuel` dominates the iteration count; callers
pass `data.length`, which suffices because each iteration advances `off`. -/
def read_high_tag (data : List Nat) : Nat → Nat → Nat → Nat × Nat
  | 0, off, acc => (acc, off)
  | fuel + 1, off, acc =>
    if off < data.length then
      let b := data.getD off 0
      let acc2 := ((acc <<< 7) % (2 ^ 32)) ||| (b &&& 0x7F)
      if b &&& 0x80 = 0 then (acc2, off + 1)
      else read_high_tag data fuel (off + 1) acc2
    else (acc, off)

/-- The big-endian length-octet accumulation loop of `parse_tlv`
(main.rs:568-574) and `find_eoc` (main.rs:471-475): `l = (l << 8) | byte`
over `n` octets in `usize` (the `<<` discards high bits, hence `% 2 ^ 64`). -/
def read_len_octets (data : List Nat) : Nat → Nat → Nat → Nat
  | 0, _, acc => acc
  | n + 1, off, acc =>
      read_len_octets data n (off + 1) (((acc <<< 8) % (2 ^ 64)) ||| (data.getD off 0))

/-- The identification-octet parsing common to `parse_tlv` (main.rs:509-530):
class from the top two bits, constructed flag from bit 5, tag number from the
low five bits or the base-128 continuation when they are all set.  Returns
`(class, constructed, number, offset after the tag)`; `none` when the buffer
is exhausted at `offset`. -/
def parse_tag_header (data : List Nat) (offset : Nat) :
    Option (Nat × Bool × Nat × Nat) :=
  if offset ≥ data.length then none
  else
    let tag_byte := data.getD offset 0
    let tag_class := (tag_byte >>> 6) &&& 0x03
    let constructed := ((tag_byte >>> 5) &&& 0x01) != 0
    let t0 := tag_byte &&& 0x1F
    let tn := if t0 = 0x1F then read_high_tag data data.length (offset + 1) 0
              else (t0, offset + 1)
    some (tag_class, constructed, tn.1, tn.2)

/-- `fn find_eoc(data, off) -> Option<usize>` (main.rs:423-491): scan the
inner TLV stream tracking nesting depth (each nested indefinite length is a
depth increment, each balanced `00 00` a decrement) and return the offset
just past the end-of-contents pair that closes depth 1.  The Rust `depth`
starts at 1 and is decremented only when it is at least 1, so a `Nat` depth
is faithful.  `fuel` dominates the loop count (each iteration strictly
advances `off`, which stays `≤ data.length`); callers pass
`data.length + 1`. -/
def find_eoc (data : List Nat) : Nat → Nat → Nat → Option Nat
  | 0, _, _ => none
  | fuel + 1, off, depth =>
    if off + 1 < data.length then
      if data.getD off 0 = 0 ∧ data.getD (off + 1) 0 = 0 then
        if depth = 1 then some (off + 2)
        else find_eoc data fuel (off + 2) (depth - 1)
      else
        match parse_tag_header data off with
        | none => none
        | some (_, constructed, _, tag_off) =>
          if tag_off ≥ data.length then none
          else
            let len_byte := data.getD tag_off 0
            let off2 := tag_off + 1
            if len_byte = 0x80 then
              if constructed = false then none
              else find_eoc data fuel off2 (depth + 1)
            else if len_byte &&& 0x80 ≠ 0 then
              -- long definite form; the source then falls through to the
              -- shared overrun/progress checks (main.rs:481-488), duplicated
              -- here in each branch of the length form
              let n := len_byte &&& 0x7F
              if n = 0 ∨ off2 + n > data.length then none
              else
                let noff := off2 + n + read_len_octets data n off2 0
                if noff > data.length then none
                else if noff ≤ off then none
                else find_eoc data fuel noff depth
            else
              let noff := off2 + len_byte
              if noff > data.length then none
              else if noff ≤ off then none
              else find_eoc data fuel noff depth
    else none

/-- `DerDecoder::parse_tlv` (main.rs:503-598).  Returns the parsed TLV and
the offset just past it, or `none` on any structural malformation.  The
declared-length overrun test `offset + length > data_len` is exact `Nat`
arithmetic here (the intended semantics); the source performs it in `usize`,
which can overflow — that defect is exhibited separately by
`parse_tlv_value_range_usize`. -/
def parse_tlv (data : List Nat) (offset : Nat) : Option (Tlv × Nat) :=
  match parse_tag_header data offset with
  | none => none
  | some (tag_class, constructed, tag_num, off2) =>
    if off2 ≥ data.length then none
    else
      let length_byte := data.getD off2 0
      let off3 := off2 + 1
      if length_byte = 0x80 then
        -- indefinite length (main.rs:539-559)
        if constructed = false then none
        else
          match find_eoc data (data.length + 1) off3 1 with
          | none => none
          | some eoc_end =>
            if eoc_end < 2 then none
            else
              let content_end := eoc_end - 2
              if content_end < off3 then none
              else
                some (⟨tag_class, constructed, tag_num, content_end - off3,
                       byteSlice data off3 content_end,
                       byteSlice data offset eoc_end⟩, eoc_end)
      else
        let lres : Option (Nat × Nat) :=
          if length_byte &&& 0x80 ≠ 0 then
            -- long definite form (main.rs:563-574)
            let num_octets := length_byte &&& 0x7F
            if num_octets = 0 ∨ off3 + num_octets > data.length then none
            else some (read_len_octets data num_octets off3 0, off3 + num_octets)
          else some (length_byte, off3)
        match lres with
        | none => none
        | some (length, vstart) =>
          if vstart + length > data.length then none
          else
            some (⟨tag_class, constructed, tag_num, length,
                   byteSlice data vstart (vstart + length),
                   byteSlice data offset (vstart + length)⟩, vstart + length)


/-- The `usize` value-slice bounds of `parse_tlv`'s definite-length branches,
with the `offset + length` comparison and slice endpoint computed modulo
`2 ^ 64` exactly as the release-build source does (main.rs:579-583: a debug
build instead panics on the overflowing addition).  Returns the `(start, end)`
pair handed to `&data[offset..offset + length]`; a result with `end < start`
makes that slice expression panic. -/
def parse_tlv_value_range_usize (data : List Nat) (offset : Nat) :
    Option (Nat × Nat) :=
  match parse_tag_header data offset with
  | none => none
  | some (_, _, _, off2) =>
    if off2 ≥ data.length then none
    else
      let length_byte := data.getD off2 0
      let off3 := off2 + 1
      if length_byte = 0x80 then none  -- the indefinite branch takes no such slice
      else
        let lres : Option (Nat × Nat) :=
          if length_byte &&& 0x80 ≠ 0 then
            let num_octets := length_byte &&& 0x7F
            if num_octets = 0 ∨ off3 + num_octets > data.length then none
            else some (read_len_octets data num_octets off3 0, off3 + num_octets)
          else some (length_byte, off3)
        match lres with
        | none => none
        | some (length, vstart) =>
          if (vstart + length) % (2 ^ 64) > data.length then none
          else some (vstart, (vstart + length) % (2 ^ 64))

/-! ## JSON writer (main.rs:377-420) -/

/-- Lower-case hex digit, `HEX[n]` for a nibble (main.rs:387,400). -/
def hex_digit (n : Nat) : Char :=
  if n < 10 then Char.ofNat (48 + n) else Char.ofNat (87 + n)

/-- One byte as two lower-case hex digits (`hex_encode_into`, main.rs:399-411;
a `u8` shifted right by 4 is already below 16, the masks only totalise the
model on non-byte values). -/
def hex_byte (b : Nat) : String :=
  String.mk [hex_digit ((b >>> 4) &&& 0xF), hex_digit (b &&& 0xF)]

/-- `hex_encode_into` (main.rs:399-411): the buffer as lower-case hex. -/
def hex_encode (bytes : List Nat) : String := String.join (bytes.map hex_byte)

/-- `write_hex_json` (main.rs:414-420): a double-quoted lower-case hex string. -/
def write_hex_json (bytes : List Nat) : String := "\"" ++ hex_encode bytes ++ "\""

/-- The escaping of one key byte in `write_json_key` (main.rs:380-392).
Operating per `Char` instead of per UTF-8 byte is output-equivalent: every
escaped code point is ASCII, and unescaped code points are emitted verbatim
either way. -/
def json_escape_char (c : Char) : String :=
  if c = '"' then "\\\""
  else if c = '\\' then "\\\\"
  else if c = '\n' then "\\n"
  else if c = '\r' then "\\r"
  else if c = '\t' then "\\t"
  else if c.toNat < 0x20 then
    String.mk ['\\', 'u', '0', '0', hex_digit ((c.toNat >>> 4) &&& 0xF),
               hex_digit (c.toNat &&& 0xF)]
  else String.mk [c]

/-- `write_json_key` (main.rs:377-396): a double-quoted escaped string. -/
def write_json_key (key : String) : String :=
  "\"" ++ String.join (key.data.map json_escape_char) ++ "\""

/-! ## Schema model (main.rs:299-362) -/

/-- The bounded loop body of `Asn1Schema::resolve_alias` (main.rs:300-309). -/
def resolve_alias_go (aliases : List (String × String)) : Nat → String → String
  | 0, t => t
  | n + 1, t =>
    match aliases.lookup t with
    | some next => resolve_alias_go aliases n next
    | none => t

/-- `Asn1Schema::resolve_alias` (main.rs:300-309): follow the alias map at
most 32 times. -/
def resolve_alias (s : Asn1Schema) (t : String) : String :=
  resolve_alias_go s.aliases 32 t

/-- `Asn1Schema::knows_type` (main.rs:312-320). -/
def knows_type (s : Asn1Schema) (t : String) : Bool :=
  let rt := resolve_alias s t
  (s.choices.lookup rt).isSome || (s.sequences.lookup rt).isSome ||
  (s.sets.lookup rt).isSome || (s.seq_of_types.lookup rt).isSome ||
  (s.set_of_types.lookup rt).isSome || (s.primitives.lookup rt).isSome

/-- `Asn1Schema::universal_tag_for_type` (main.rs:332-362). -/
def universal_tag_for_type (s : Asn1Schema) (t : String) : Option TagKey :=
  let rt := resolve_alias s t
  if (s.sequences.lookup rt).isSome || (s.seq_of_types.lookup rt).isSome then
    some (0, 16)
  else if (s.sets.lookup rt).isSome || (s.set_of_types.lookup rt).isSome then
    some (0, 17)
  else if (s.choices.lookup rt).isSome then none
  else
    let kind := (s.primitives.lookup rt).getD rt
    if kind = "INTEGER" then some (0, 2)
    else if kind = "OCTET STRING" then some (0, 4)
    else if kind = "BIT STRING" then some (0, 3)
    else if kind = "BOOLEAN" then some (0, 1)
    else if kind = "NULL" then some (0, 5)
    else if kind = "ENUMERATED" then some (0, 10)
    else if kind = "IA5String" then some (0, 22)
    else if kind = "UTF8String" then some (0, 12)
    else if kind = "OBJECT IDENTIFIER" then some (0, 6)
    else if kind = "TBCD-STRING" then some (0, 4)
    else if kind = "GraphicString" then some (0, 25)
    else if kind = "VisibleString" then some (0, 26)
    else none

/-- `Asn1Schema::tag_for_type` (main.rs:323-329). -/
def tag_for_type (s : Asn1Schema) (t : String) : Option TagKey :=
  let rt := resolve_alias s t
  match s.type_outer_tag.lookup rt with
  | some tk => some tk
  | none => universal_tag_for_type s rt

/-- `DerDecoder::choice_alt_matches_tlv` (main.rs:600-628): does a TLV match
an alternative's type structurally? -/
def choice_alt_matches_tlv (s : Asn1Schema) (alt_type : String) (tlv : Tlv) :
    Bool :=
  let rt := resolve_alias s alt_type
  match s.type_outer_tag.lookup rt with
  | some (cls, tag) => tlv.tag_class == cls && tlv.tag_num == tag
  | none =>
    let sub := match s.choices.lookup rt with
      | some sub_alts => (sub_alts.lookup (tlv.tag_class, tlv.tag_num)).isSome
      | none => false
    if sub then true
    else if (s.sequences.lookup rt).isSome || (s.seq_of_types.lookup rt).isSome then
      tlv.tag_class == 0 && tlv.constructed && tlv.tag_num == 16
    else if (s.sets.lookup rt).isSome || (s.set_of_types.lookup rt).isSome then
      tlv.tag_class == 0 && tlv.constructed && tlv.tag_num == 17
    else
      match universal_tag_for_type s rt with
      | some (cls, tag) => tlv.tag_class == cls && tlv.tag_num == tag
      | none => false

/-- `DerDecoder::tlv_matches_root` (main.rs:631-660).  The `for` over the
alternative map is an existence test, so the association-list `any` is
faithful regardless of `HashMap` iteration order. -/
def tlv_matches_root (s : Asn1Schema) (tlv : Tlv) (root_type : String) : Bool :=
  let rt := resolve_alias s root_type
  match s.type_outer_tag.lookup rt with
  | some (cls, num) => tlv.tag_class == cls && tlv.tag_num == num
  | none =>
    match s.choices.lookup rt with
    | some alts =>
      (alts.lookup (tlv.tag_class, tlv.tag_num)).isSome ||
      alts.any (fun e =>
        e.1.1 == 3 && is_synth_choice_tag e.1.2 &&
        choice_alt_matches_tlv s e.2.2 tlv)
    | none =>
      if (s.sequences.lookup rt).isSome || (s.seq_of_types.lookup rt).isSome then
        tlv.tag_class == 0 && tlv.constructed && tlv.tag_num == 16
      else if (s.sets.lookup rt).isSome || (s.set_of_types.lookup rt).isSome then
        tlv.tag_class == 0 && tlv.constructed && tlv.tag_num == 17
      else (s.primitives.lookup rt).isSome

/-! ## CHOICE resolution helpers (main.rs:811-889) -/

/-- Insertion sort used to model `synth_keys.sort_unstable()` (main.rs:859);
the key list holds distinct numbers, so stability is irrelevant. -/
def insert_sorted (n : Nat) : List Nat → List Nat
  | [] => [n]
  | m :: rest => if n ≤ m then n :: m :: rest else m :: insert_sorted n rest

/-- Ascending sort of the synthetic-key list (main.rs:854-859). -/
def sort_nats (l : List Nat) : List Nat := l.foldr insert_sorted []

/-- Step 1 of `write_choice` (main.rs:843-851): the first candidate, in
order, whose tag key is an alternative key. -/
def first_direct_match (cands : List Tlv)
    (alts : List (TagKey × (String × String))) :
    Option (Tlv × String × String) :=
  match cands with
  | [] => none
  | c :: rest =>
    match alts.lookup (c.tag_class, c.tag_num) with
    | some (fname, tname) => some (c, fname, tname)
    | none => first_direct_match rest alts

/-- Step 2 of `write_choice` (main.rs:861-882): for each synthetic key in
ascending order, the first candidate that structurally matches the
alternative's type.  The `alts[&(3, k)]` indexing of the source always
succeeds because every `k` was collected from `alts`; the `getD` default is
never used. -/
def first_synth_match (s : Asn1Schema)
    (alts : List (TagKey × (String × String))) (cands : List Tlv) :
    List Nat → Option (Tlv × String × String)
  | [] => none
  | k :: rest =>
    let alt := (alts.lookup (3, k)).getD ("", "")
    match cands.find? (fun c => choice_alt_matches_tlv s alt.2 c) with
    | some c => some (c, alt.1, alt.2)
    | none => first_synth_match s alts cands rest

/-! ## Decoder dispatch (main.rs:674-889)

The schema-directed writers are mutually recursive through the schema's type
graph; in the source, termination rests on the candidate slices shrinking
through CHOICE hops.  Here every mutual call consumes one unit of fuel and a
fuel-exhaustion branch returns the neutral output; wrappers supply fuel
ample for the input (a level of nesting consumes a few units and strictly
shrinks the data or moves to a direct match). -/

mutual

/-- `DerDecoder::write_type` (main.rs:675-702). -/
def write_type (s : Asn1Schema) : Nat → List Nat → String → String
  | 0, _, _ => ""
  | fuel + 1, data, type_name =>
    let rt := resolve_alias s type_name
    match s.seq_of_types.lookup rt with
    | some elem => write_sequence_of s fuel data elem
    | none =>
      match s.set_of_types.lookup rt with
      | some elem => write_sequence_of s fuel data elem
      | none =>
        match s.choices.lookup rt with
        | some alts => write_choice s fuel alts data
        | none =>
          match s.sequences.lookup rt with
          | some fields => write_sequence s fuel fields data
          | none =>
            match s.sets.lookup rt with
            | some fields => write_sequence s fuel fields data
            | none => write_hex_json data

/-- `DerDecoder::write_sequence` (main.rs:704-771): open brace, the member
list (comma-separated exactly as the source's `first` flag produces), close
brace. -/
def write_sequence (s : Asn1Schema) :
    Nat → List (TagKey × FieldSpec) → List Nat → String
  | 0, _, _ => ""
  | fuel + 1, field_spec, data =>
    "\x7b" ++ String.intercalate "," (seq_members s fuel field_spec data 0) ++ "\x7d"

/-- The TLV loop of `write_sequence` (main.rs:718-767), one member string per
parsed TLV: a known tag key emits `"name":` and recurses per the field's
shape, an unknown tag key emits the `unknown_tag_<class>_<num>` member, and
the loop continues past both. -/
def seq_members (s : Asn1Schema) :
    Nat → List (TagKey × FieldSpec) → List Nat → Nat → List String
  | 0, _, _, _ => []
  | fuel + 1, field_spec, data, offset =>
    if offset < data.length then
      match parse_tlv data offset with
      | none => []
      | some (tlv, new_off) =>
        if new_off ≤ offset then []
        else
          let member :=
            match field_spec.lookup (tlv.tag_class, tlv.tag_num) with
            | some field =>
              write_json_key field.name ++ ":" ++
                (if field.is_sequence_of || field.is_set_of then
                   write_sequence_of s fuel tlv.value field.field_type
                 else if (s.choices.lookup (resolve_alias s field.field_type)).isSome then
                   -- explicit-wrapper CHOICE: pass the raw TLV (main.rs:742-751)
                   write_type s fuel tlv.raw field.field_type
                 else if tlv.constructed then
                   write_type s fuel tlv.value field.field_type
                 else write_hex_json tlv.value)
            | none =>
              "\"unknown_tag_" ++ Nat.repr tlv.tag_class ++ "_" ++
                Nat.repr tlv.tag_num ++ "\":" ++ write_hex_json tlv.value
          member :: seq_members s fuel field_spec data new_off
    else []

/-- `DerDecoder::write_sequence_of` (main.rs:773-809). -/
def write_sequence_of (s : Asn1Schema) : Nat → List Nat → String → String
  | 0, _, _ => ""
  | fuel + 1, data, element_type =>
    "[" ++ String.intercalate "," (seq_of_items s fuel data element_type 0) ++ "]"

/-- The item loop of `write_sequence_of` (main.rs:780-805). -/
def seq_of_items (s : Asn1Schema) : Nat → List Nat → String → Nat → List String
  | 0, _, _, _ => []
  | fuel + 1, data, element_type, offset =>
    if offset < data.length then
      match parse_tlv data offset with
      | none => []
      | some (tlv, new_off) =>
        if new_off ≤ offset then []
        else
          let item :=
            if (s.choices.lookup (resolve_alias s element_type)).isSome then
              write_type s fuel tlv.raw element_type
            else if tlv.constructed then
              write_type s fuel tlv.value element_type
            else write_hex_json tlv.value
          item :: seq_of_items s fuel data element_type new_off
    else []

/-- `DerDecoder::write_choice` (main.rs:811-889): parse the outer TLV ("null"
when none parses), build up to three candidates (outer; first inner TLV of a
constructed outer; first inner TLV of a universal-primitive OCTET STRING
outer with nonempty, non-zero-leading content), then direct tag match,
ordered synthetic probe, or the `unknown_alternative` member. -/
def write_choice (s : Asn1Schema) :
    Nat → List (TagKey × (String × String)) → List Nat → String
  | 0, _, _ => ""
  | fuel + 1, alts, data =>
    match parse_tlv data 0 with
    | none => "null"
    | some (outer, _) =>
      let cand1 := if outer.constructed then (parse_tlv outer.value 0).map (fun p => p.1)
                   else none
      let cand2 := if outer.tag_class = 0 ∧ outer.constructed = false ∧
                      outer.tag_num = 4 ∧ outer.value ≠ [] ∧ outer.value.getD 0 0 ≠ 0
                   then (parse_tlv outer.value 0).map (fun p => p.1)
                   else none
      let candidates := [some outer, cand1, cand2].reduceOption
      match first_direct_match candidates alts with
      | some (cand, field_name, type_name) =>
        "\x7b" ++ write_json_key field_name ++ ":" ++
          write_type s fuel cand.value type_name ++ "\x7d"
      | none =>
        let synth_keys := sort_nats ((alts.filter
          (fun e => e.1.1 == 3 && is_synth_choice_tag e.1.2)).map (fun e => e.1.2))
        match first_synth_match s alts candidates synth_keys with
        | some (cand, fname, ftype) =>
          let f_rt := resolve_alias s ftype
          "\x7b" ++ write_json_key fname ++ ":" ++
            (if (s.type_outer_tag.lookup f_rt).isSome then
               write_type s fuel cand.value ftype
             else if (s.choices.lookup f_rt).isSome then
               write_type s fuel cand.raw ftype
             else write_type s fuel cand.value ftype) ++ "\x7d"
        | none =>
          "\x7b" ++ write_json_key "unknown_alternative" ++ ":" ++
            write_hex_json outer.raw ++ "\x7d"

end

/-! ## Root scanning and the per-file driver (main.rs:662-672, 891-982) -/

/-- The scan loop of `DerDecoder::find_next_root_tlv` (main.rs:662-672):
parse a TLV at each position; return it when it advances and matches the
root type, else retry one byte further. -/
def find_next_root_tlv_go (s : Asn1Schema) (data : List Nat) (root_type : String) :
    Nat → Nat → Option (Tlv × Nat)
  | 0, _ => none
  | fuel + 1, start =>
    if start < data.length then
      match parse_tlv data start with
      | some (tlv, e) =>
        if start < e ∧ tlv_matches_root s tlv root_type then some (tlv, e)
        else find_next_root_tlv_go s data root_type fuel (start + 1)
      | none => find_next_root_tlv_go s data root_type fuel (start + 1)
    else none

/-- `DerDecoder::find_next_root_tlv` (main.rs:662-672); the loop runs at most
`data.length - start` times, which is exactly the fuel supplied. -/
def find_next_root_tlv (s : Asn1Schema) (data : List Nat) (start : Nat)
    (root_type : String) : Option (Tlv × Nat) :=
  find_next_root_tlv_go s data root_type (data.length - start) start

/-- `DerDecoder::write_root_tlv_with_type` (main.rs:891-909); `none` models
the `Err` on an unknown root type. -/
def write_root_tlv_with_type (s : Asn1Schema) (wfuel : Nat) (tlv : Tlv)
    (root_type : String) : Option String :=
  let rt := resolve_alias s root_type
  if knows_type s rt = false then none
  else if (s.type_outer_tag.lookup rt).isSome then
    some (write_type s wfuel tlv.value root_type)
  else if (s.choices.lookup rt).isSome then
    some (write_type s wfuel tlv.raw root_type)
  else some (write_type s wfuel tlv.value root_type)

/-- The record loop of `process_file` (main.rs:967-978), collecting the JSON
line written for each successive root-typed record (an `Err` from
`write_root_tlv_with_type` aborts the loop, as `?` does in the source). -/
def record_lines_go (s : Asn1Schema) (root_type : String) (data : List Nat)
    (wfuel : Nat) : Nat → Nat → List String
  | 0, _ => []
  | fuel + 1, offset =>
    if offset < data.length then
      match find_next_root_tlv s data offset root_type with
      | none => []
      | some (tlv, new_off) =>
        match write_root_tlv_with_type s wfuel tlv root_type with
        | none => []
        | some line => line :: record_lines_go s root_type data wfuel fuel new_off
    else []

/-- The same loop accumulating the output file's bytes (each record's line
followed by the `\n` written at main.rs:974) and the record count. -/
def process_file_go (s : Asn1Schema) (root_type : String) (data : List Nat)
    (wfuel : Nat) : Nat → Nat → String × Nat
  | 0, _ => ("", 0)
  | fuel + 1, offset =>
    if offset < data.length then
      match find_next_root_tlv s data offset root_type with
      | none => ("", 0)
      | some (tlv, new_off) =>
        match write_root_tlv_with_type s wfuel tlv root_type with
        | none => ("", 0)
        | some line =>
          let rest := process_file_go s root_type data wfuel fuel new_off
          (line ++ "\n" ++ rest.1, rest.2 + 1)
    else ("", 0)

/-- The JSON lines `process_file` emits for a buffer (each iteration strictly
advances the offset, so `data.length + 1` units of loop fuel always
suffice; `2 * data.length + 8` units of writer fuel dominate the recursion
depth of the writers on any record of the buffer). -/
def record_lines (s : Asn1Schema) (root_type : String) (data : List Nat) :
    List String :=
  record_lines_go s root_type data (2 * data.length + 8) (data.length + 1) 0

/-- `process_file` (main.rs:943-982) at the byte level: `none` models the
early return `if data.is_empty() { return Ok(0); }` (main.rs:948), which
happens *before* `File::create` — no `.jsonl` file is written for an empty
input.  Otherwise `some (content, count)`: the created output file's content
and the record count returned. -/
def process_file (s : Asn1Schema) (root_type : String) (data : List Nat) :
    Option (String × Nat) :=
  if data.length = 0 then none
  else some (process_file_go s root_type data (2 * data.length + 8) (data.length + 1) 0)

/-- Concatenation of JSON lines, each followed by the `\n` terminator the
driver writes after every record. -/
def join_lines (l : List String) : String :=
  l.foldr (fun a acc => a ++ "\n" ++ acc) ""

/-! ## Concrete compiled schemas for the end-to-end scenarios -/

/-- The compiled schema `Asn1Schema::parse` produces for the module text
`L ::= SEQUENCE OF OCTET STRING`: the type-assignment pattern captures kind
`SEQUENCE` with an `OF` element, so the name lands in `seq_of_types`
(main.rs:184-190).  The element captured is the single word `OCTET` (the
element group in the pattern cannot span the space in `OCTET STRING`), which
is irrelevant to decoding: primitive items are emitted as hex regardless. -/
def schemaL : Asn1Schema :=
  { choices := [], sequences := [], sets := [],
    seq_of_types := [("L", "OCTET")], set_of_types := [],
    primitives := [], aliases := [], type_outer_tag := [] }

/-- The alternatives table the compiler builds for
`C ::= CHOICE \x7b s S, t T \x7d`: no tagged alternative matches, so the
untagged fallback (main.rs:258-269) assigns synthetic keys in declaration
order. -/
def altsC : List (TagKey × (String × String)) :=
  [((3, SYNTH_CHOICE_BASE), ("s", "S")), ((3, SYNTH_CHOICE_BASE + 1), ("t", "T"))]

/-- The compiled schema for
`S ::= SEQUENCE \x7b a [0] INTEGER \x7d`,
`T ::= SET \x7b b [0] INTEGER \x7d`,
`C ::= CHOICE \x7b s S, t T \x7d`:
each context-tagged field keys on `(CONTEXT, 0)`; the CHOICE gets the
synthetic alternatives of `altsC`. -/
def schemaSTC : Asn1Schema :=
  { choices := [("C", altsC)],
    sequences := [("S", [((2, 0), ⟨"a", "INTEGER", false, false, false⟩)])],
    sets := [("T", [((2, 0), ⟨"b", "INTEGER", false, false, false⟩)])],
    seq_of_types := [], set_of_types := [],
    primitives := [], aliases := [], type_outer_tag := [] }

/-! ## The untagged-CHOICE fallback of the schema compiler (main.rs:258-269) -/

/-- `HashMap::insert` on the alternatives table: replace the entry with an
equal key, else append. -/
def insert_alt (alts : List (TagKey × (String × String))) (k : TagKey)
    (v : String × String) : List (TagKey × (String × String)) :=
  if (alts.lookup k).isSome then
    alts.map (fun e => if e.1 = k then (k, v) else e)
  else alts ++ [(k, v)]

/-- Is an untagged alternative pair inserted by the fallback loop?  The
source skips the placeholders `isPdu` and `TRUE` and (vacuously for the
regex's captures) empty names or types (main.rs:263-264). -/
def untagged_alt_kept (p : String × String) : Bool :=
  decide (¬(p.1 = "isPdu" ∨ p.1 = "TRUE") ∧ (p.1 ≠ "" ∧ p.2 ≠ ""))

/-- The untagged-CHOICE fallback loop of `Asn1Schema::parse` (main.rs:258-269)
over the `(name, type)` pairs the untagged-alternative pattern yielded, in
match order.  `idx` is a `u32`: the additions `SYNTH_CHOICE_BASE + idx` and
`idx += 1` wrap modulo `2 ^ 32` (release build; a debug build panics once
`idx` exceeds `255`). -/
def build_untagged_alts_go :
    List (String × String) → Nat → List (TagKey × (String × String)) →
    List (TagKey × (String × String))
  | [], _, acc => acc
  | (field_name, field_type) :: rest, idx, acc =>
    if field_name = "isPdu" ∨ field_name = "TRUE" then
      build_untagged_alts_go rest idx acc
    else if field_name ≠ "" ∧ field_type ≠ "" then
      build_untagged_alts_go rest ((idx + 1) % (2 ^ 32))
        (insert_alt acc (3, (SYNTH_CHOICE_BASE + idx) % (2 ^ 32)) (field_name, field_type))
    else build_untagged_alts_go rest idx acc

/-- The alternatives table the fallback records for a CHOICE body whose
untagged pattern produced `pairs`. -/
def build_untagged_alts (pairs : List (String × String)) :
    List (TagKey × (String × String)) :=
  build_untagged_alts_go pairs 0 []

/-! ## Supporting lemmas -/

lemma lookup_eq_none_of_ne {β : Type _} (l : List (TagKey × β)) (k : TagKey)
    (h : ∀ e ∈ l, e.1 ≠ k) : l.lookup k = none := by
  induction l with
  | nil => rfl
  | cons e rest ih =>
    have hne : (k == e.1) = false :=
      beq_eq_false_iff_ne.mpr (fun hk => h e (by simp) hk.symm)
    obtain ⟨k1, v1⟩ := e
    simp only [List.lookup, hne]
    exact ih (fun e' he' => h e' (List.mem_cons_of_mem _ he'))

/-- Unfolding of the untagged-CHOICE fallback loop while the index stays
below the `u32` wrap and the synthetic keys stay fresh: every kept pair is
appended with the next ascending synthetic key. -/
lemma build_untagged_alts_go_spec :
    ∀ (pairs : List (String × String)) (idx : Nat)
      (acc : List (TagKey × (String × String))),
      idx + (pairs.filter untagged_alt_kept).length ≤ 256 →
      (∀ e ∈ acc, e.1.2 < SYNTH_CHOICE_BASE + idx) →
      build_untagged_alts_go pairs idx acc =
        acc ++ (List.enumFrom idx (pairs.filter untagged_alt_kept)).map
          (fun e => ((3, SYNTH_CHOICE_BASE + e.1), e.2)) := by
  intro pairs
  induction pairs with
  | nil => intro idx acc _ _; simp [build_untagged_alts_go]
  | cons p rest ih =>
    intro idx acc hbound hacc
    obtain ⟨fn, ft⟩ := p
    by_cases h1 : fn = "isPdu" ∨ fn = "TRUE"
    · have hk : untagged_alt_kept (fn, ft) = false := by
        simp only [untagged_alt_kept, decide_eq_false_iff_not]
        tauto
      have hfilter : ((fn, ft) :: rest).filter untagged_alt_kept =
          rest.filter untagged_alt_kept := by
        simp [List.filter_cons, hk]
      rw [hfilter] at hbound ⊢
      simp only [build_untagged_alts_go]
      rw [if_pos h1]
      exact ih idx acc hbound hacc
    · by_cases h2 : fn ≠ "" ∧ ft ≠ ""
      · have hk : untagged_alt_kept (fn, ft) = true := by
          simp only [untagged_alt_kept, decide_eq_true_eq]
          tauto
        have hfilter : ((fn, ft) :: rest).filter untagged_alt_kept =
            (fn, ft) :: rest.filter untagged_alt_kept := by
          simp [List.filter_cons, hk]
        rw [hfilter] at hbound ⊢
        simp only [List.length_cons] at hbound
        have hidx : idx ≤ 255 := by omega
        have hmod1 : (idx + 1) % (2 ^ 32) = idx + 1 := by
          apply Nat.mod_eq_of_lt; omega
        have hmod2 : (SYNTH_CHOICE_BASE + idx) % (2 ^ 32) = SYNTH_CHOICE_BASE + idx := by
          apply Nat.mod_eq_of_lt
          have : SYNTH_CHOICE_BASE = 0xFFFFFF00 := rfl
          omega
        have hfresh : (List.lookup ((3 : Nat), SYNTH_CHOICE_BASE + idx) acc).isSome = false := by
          rw [lookup_eq_none_of_ne]
          · rfl
          · intro e he heq
            have hlt := hacc e he
            rw [heq] at hlt
            simp at hlt
        have hins : insert_alt acc (3, (SYNTH_CHOICE_BASE + idx) % (2 ^ 32)) (fn, ft) =
            acc ++ [((3, SYNTH_CHOICE_BASE + idx), (fn, ft))] := by
          rw [hmod2, insert_alt, if_neg (by simp [hfresh])]
        simp only [build_untagged_alts_go]
        rw [if_neg h1, if_pos h2, hmod1, hins]
        rw [ih (idx + 1) _ (by omega)
          (by intro e he
              rcases List.mem_append.mp he with h | h
              · have := hacc e h; omega
              · simp at h; rw [h]; simp)]
        rw [List.enumFrom_cons]
        simp
      · have hk : untagged_alt_kept (fn, ft) = false := by
          simp only [untagged_alt_kept, decide_eq_false_iff_not]
          tauto
        have hfilter : ((fn, ft) :: rest).filter untagged_alt_kept =
            rest.filter untagged_alt_kept := by
          simp [List.filter_cons, hk]
        rw [hfilter] at hbound ⊢
        simp only [build_untagged_alts_go]
        rw [if_neg h1, if_neg h2]
        exact ih idx acc hbound hacc

lemma read_high_tag_le (data : List Nat) :
    ∀ (fuel off acc : Nat), off ≤ (read_high_tag data fuel off acc).2 := by
  intro fuel
  induction fuel with
  | zero => intro off acc; simp [read_high_tag]
  | succ f ih =>
    intro off acc
    simp only [read_high_tag]
    split
    · split
      · simp
      · exact le_trans (Nat.le_succ off) (ih (off + 1) _)
    · simp

lemma parse_tag_header_some (data : List Nat) (offset : Nat)
    (tc : Nat) (cons : Bool) (tn off2 : Nat)
    (h : parse_tag_header data offset = some (tc, cons, tn, off2)) :
    offset < data.length ∧ offset < off2 := by
  unfold parse_tag_header at h
  split at h
  · exact absurd h (by simp)
  · rename_i hlen
    refine ⟨by omega, ?_⟩
    simp only [Option.some.injEq, Prod.mk.injEq] at h
    obtain ⟨-, -, -, h4⟩ := h
    rw [← h4]
    split
    · exact lt_of_lt_of_le (Nat.lt_succ_self offset) (read_high_tag_le data _ _ _)
    · exact Nat.lt_succ_self offset

lemma find_eoc_sound (data : List Nat) :
    ∀ (fuel off depth e : Nat), find_eoc data fuel off depth = some e →
      off + 2 ≤ e ∧ e ≤ data.length ∧
      data.getD (e - 2) 0 = 0 ∧ data.getD (e - 1) 0 = 0 := by
  intro fuel
  induction fuel with
  | zero => intro off depth e h; exact absurd h (by simp [find_eoc])
  | succ f ih =>
    intro off depth e h
    simp only [find_eoc] at h
    split at h
    · rename_i hwin
      split at h
      · rename_i hzz
        split at h
        · simp only [Option.some.injEq] at h
          refine ⟨by omega, by omega, ?_, ?_⟩
          · have he2 : e - 2 = off := by omega
            rw [he2]; exact hzz.1
          · have he1 : e - 1 = off + 1 := by omega
            rw [he1]; exact hzz.2
        · have hrec := ih (off + 2) (depth - 1) e h
          exact ⟨by omega, hrec.2.1, hrec.2.2.1, hrec.2.2.2⟩
      · cases hq : parse_tag_header data off with
        | none => rw [hq] at h; exact absurd h (by simp)
        | some q =>
          obtain ⟨c1, cons, n1, tag_off⟩ := q
          rw [hq] at h
          have hto := parse_tag_header_some data off c1 cons n1 tag_off hq
          simp only at h
          split at h
          · exact absurd h (by simp)
          · split at h
            · split at h
              · exact absurd h (by simp)
              · have hrec := ih (tag_off + 1) (depth + 1) e h
                exact ⟨by omega, hrec.2.1, hrec.2.2.1, hrec.2.2.2⟩
            · split at h
              · split at h
                · exact absurd h (by simp)
                · split at h
                  · exact absurd h (by simp)
                  · split at h
                    · exact absurd h (by simp)
                    · rename_i hbig hle
                      have hrec := ih _ depth e h
                      exact ⟨by omega, hrec.2.1, hrec.2.2.1, hrec.2.2.2⟩
              · split at h
                · exact absurd h (by simp)
                · split at h
                  · exact absurd h (by simp)
                  · rename_i hbig hle
                    have hrec := ih _ depth e h
                    exact ⟨by omega, hrec.2.1, hrec.2.2.1, hrec.2.2.2⟩
    · exact absurd h (by simp)

lemma byteSlice_length (data : List Nat) (a b : Nat) (h1 : a ≤ b)
    (h2 : b ≤ data.length) : (byteSlice data a b).length = b - a := by
  simp only [byteSlice, List.length_take, List.length_drop]
  omega

lemma byteSlice_drop (data : List Nat) (a c b : Nat) (h : a ≤ c) :
    byteSlice data c b = (byteSlice data a b).drop (c - a) := by
  simp only [byteSlice, List.drop_take, List.drop_drop]
  congr 1
  · omega
  · congr 1
    omega

lemma byteSlice_suffix (data : List Nat) (a c b : Nat) (h : a ≤ c) :
    List.IsSuffix (byteSlice data c b) (byteSlice data a b) := by
  rw [byteSlice_drop data a c b h]
  exact List.drop_suffix _ _

lemma byteSlice_append (data : List Nat) (a m b : Nat) (h1 : a ≤ m) (h2 : m ≤ b) :
    byteSlice data a m ++ byteSlice data m b = byteSlice data a b := by
  have hb : b - a = (m - a) + (b - m) := by omega
  simp only [byteSlice, hb, List.take_add, List.drop_drop]
  congr 3
  omega

lemma byteSlice_pair (data : List Nat) (m : Nat) (h : m + 2 ≤ data.length) :
    byteSlice data m (m + 2) = [data.getD m 0, data.getD (m + 1) 0] := by
  have h1 : m < data.length := by omega
  have h2 : m + 1 < data.length := by omega
  have h3 : m + 2 - m = 2 := by omega
  rw [byteSlice, h3, List.drop_eq_getElem_cons h1, List.drop_eq_getElem_cons h2,
    List.getD_eq_getElem data 0 h1, List.getD_eq_getElem data 0 h2]
  rfl

lemma parse_tlv_bounds (data : List Nat) (offset : Nat) (tlv : Tlv) (next : Nat)
    (h : parse_tlv data offset = some (tlv, next)) :
    offset < data.length ∧ offset < next ∧ next ≤ data.length := by
  unfold parse_tlv at h
  cases hq : parse_tag_header data offset with
  | none => rw [hq] at h; exact absurd h (by simp)
  | some q =>
    obtain ⟨tc, cons, tn, off2⟩ := q
    rw [hq] at h
    have hto := parse_tag_header_some data offset tc cons tn off2 hq
    simp only at h
    split at h
    · exact absurd h (by simp)
    · rename_i hlt
      split at h
      · -- indefinite length
        split at h
        · exact absurd h (by simp)
        · cases he : find_eoc data (data.length + 1) (off2 + 1) 1 with
          | none => rw [he] at h; exact absurd h (by simp)
          | some e =>
            rw [he] at h
            have hs := find_eoc_sound data _ _ _ _ he
            simp only at h
            split at h
            · exact absurd h (by simp)
            · split at h
              · exact absurd h (by simp)
              · simp only [Option.some.injEq, Prod.mk.injEq] at h
                obtain ⟨-, h2⟩ := h
                omega
      · -- definite length
        split at h
        · exact absurd h (by simp)
        · rename_i length vstart heq
          split at h
          · exact absurd h (by simp)
          · rename_i hov
            simp only [Option.some.injEq, Prod.mk.injEq] at h
            obtain ⟨-, h2⟩ := h
            have hvs : off2 + 1 ≤ vstart := by
              split at heq
              · split at heq
                · exact absurd heq (by simp)
                · simp only [Option.some.injEq, Prod.mk.injEq] at heq
                  omega
              · simp only [Option.some.injEq, Prod.mk.injEq] at heq
                omega
            omega

/-! ## Claim theorems -/

/-- Claim C1 (counterexample): on the indefinite-length TLV
`30 80 04 01 AA 00 00` the reader succeeds, but the value slice
`04 01 AA` is *not* a suffix of the raw slice, whose last two bytes are
the end-of-contents zeros — refuting the claim's "value is a suffix of raw
… for definite-length and indefinite-length TLVs alike". -/
theorem c1_value_suffix_counterexample :
    (parse_tlv [0x30, 0x80, 0x04, 0x01, 0xAA, 0x00, 0x00] 0).map
      (fun p => decide (List.IsSuffix p.1.value p.1.raw)) = some false := by
  decide

/-- Claim C1 (corrected): whenever `parse_tlv` returns a TLV with its next
offset, the raw slice's length is exactly `next - offset`; and with each
disjunct tied to its length form — a TLV is indefinite exactly when the
length octet (the byte at the offset the tag header ends at) is `0x80` —
the value slice is a suffix of the raw slice for a definite-length TLV,
while for an indefinite-length TLV the value followed by the two
end-of-contents zero octets is a suffix of the raw slice (the value stops
two bytes short of `raw`, main.rs:545-548). -/
theorem c1_tlv_slices (data : List Nat) (offset : Nat) (tlv : Tlv) (next : Nat)
    (h : parse_tlv data offset = some (tlv, next)) :
    tlv.raw.length = next - offset ∧
    ∀ (tc : Nat) (cons : Bool) (tn off2 : Nat),
      parse_tag_header data offset = some (tc, cons, tn, off2) →
      (data.getD off2 0 = 0x80 → List.IsSuffix (tlv.value ++ [0, 0]) tlv.raw) ∧
      (data.getD off2 0 ≠ 0x80 → List.IsSuffix tlv.value tlv.raw) := by
  unfold parse_tlv at h
  cases hq : parse_tag_header data offset with
  | none => rw [hq] at h; exact absurd h (by simp)
  | some q =>
    obtain ⟨tc, cons, tn, off2⟩ := q
    rw [hq] at h
    have hto := parse_tag_header_some data offset tc cons tn off2 hq
    simp only at h
    split at h
    · exact absurd h (by simp)
    · rename_i hlt
      split at h
      · -- indefinite length
        rename_i hlb
        split at h
        · exact absurd h (by simp)
        · cases he : find_eoc data (data.length + 1) (off2 + 1) 1 with
          | none => rw [he] at h; exact absurd h (by simp)
          | some e =>
            rw [he] at h
            have hs := find_eoc_sound data _ _ _ _ he
            simp only at h
            split at h
            · exact absurd h (by simp)
            · rename_i he2
              split at h
              · exact absurd h (by simp)
              · rename_i hce
                simp only [Option.some.injEq, Prod.mk.injEq] at h
                obtain ⟨htlv, hnext⟩ := h
                subst hnext
                subst htlv
                dsimp only
                refine ⟨byteSlice_length data offset e (by omega) (by omega), ?_⟩
                intro tc' cons' tn' off2' hq'
                simp only [Option.some.injEq, Prod.mk.injEq] at hq'
                obtain ⟨-, -, -, h4⟩ := hq'
                subst h4
                refine ⟨fun _ => ?_, fun hne => absurd hlb hne⟩
                have hz : byteSlice data (e - 2) e = [0, 0] := by
                  have hnn : e - 2 + 2 = e := by omega
                  have hp := byteSlice_pair data (e - 2) (by omega)
                  rw [hnn] at hp
                  rw [hp]
                  have h1 : e - 2 + 1 = e - 1 := by omega
                  rw [h1, hs.2.2.1, hs.2.2.2]
                have happ := byteSlice_append data (off2 + 1) (e - 2) e
                  (by omega) (by omega)
                rw [← hz, happ]
                exact byteSlice_suffix data offset (off2 + 1) e (by omega)
      · -- definite length
        rename_i hlb
        split at h
        · exact absurd h (by simp)
        · rename_i length vstart heq
          split at h
          · exact absurd h (by simp)
          · rename_i hov
            simp only [Option.some.injEq, Prod.mk.injEq] at h
            obtain ⟨htlv, hnext⟩ := h
            subst hnext
            subst htlv
            dsimp only
            have hvs : off2 + 1 ≤ vstart := by
              split at heq
              · split at heq
                · exact absurd heq (by simp)
                · simp only [Option.some.injEq, Prod.mk.injEq] at heq
                  omega
              · simp only [Option.some.injEq, Prod.mk.injEq] at heq
                omega
            refine ⟨byteSlice_length data offset (vstart + length) (by omega) (by omega), ?_⟩
            intro tc' cons' tn' off2' hq'
            simp only [Option.some.injEq, Prod.mk.injEq] at hq'
            obtain ⟨-, -, -, h4⟩ := hq'
            subst h4
            refine ⟨fun h80 => absurd h80 hlb, fun _ => ?_⟩
            exact byteSlice_suffix data offset vstart (vstart + length) (by omega)

/-- Witness for `c1_tlv_slices`, exercising both length forms: the
definite-length INTEGER `02 01 05` (length octet `01`, plain suffix) and
the indefinite-length constructed TLV `30 80 04 01 AA 00 00` (length octet
`80`, suffix with the end-of-contents pair). -/
theorem c1_tlv_slices_witness :
    List.IsSuffix (⟨0, false, 2, 1, [0x05], [0x02, 0x01, 0x05]⟩ : Tlv).value
      (⟨0, false, 2, 1, [0x05], [0x02, 0x01, 0x05]⟩ : Tlv).raw ∧
    List.IsSuffix
      ((⟨0, true, 16, 3, [0x04, 0x01, 0xAA],
         [0x30, 0x80, 0x04, 0x01, 0xAA, 0x00, 0x00]⟩ : Tlv).value ++ [0, 0])
      (⟨0, true, 16, 3, [0x04, 0x01, 0xAA],
         [0x30, 0x80, 0x04, 0x01, 0xAA, 0x00, 0x00]⟩ : Tlv).raw :=
  ⟨((c1_tlv_slices [0x02, 0x01, 0x05] 0
      ⟨0, false, 2, 1, [0x05], [0x02, 0x01, 0x05]⟩ 3 (by decide)).2
      0 false 2 1 (by decide)).2 (by decide),
   ((c1_tlv_slices [0x30, 0x80, 0x04, 0x01, 0xAA, 0x00, 0x00] 0
      ⟨0, true, 16, 3, [0x04, 0x01, 0xAA],
       [0x30, 0x80, 0x04, 0x01, 0xAA, 0x00, 0x00]⟩ 7 (by decide)).2
      0 true 16 1 (by decide)).1 (by decide)⟩

lemma process_file_go_spec (s : Asn1Schema) (root_type : String) (data : List Nat)
    (wfuel : Nat) : ∀ (fuel off : Nat),
    process_file_go s root_type data wfuel fuel off =
      (join_lines (record_lines_go s root_type data wfuel fuel off),
       (record_lines_go s root_type data wfuel fuel off).length) := by
  intro fuel
  induction fuel with
  | zero => intro off; simp [process_file_go, record_lines_go, join_lines]
  | succ f ih =>
    intro off
    simp only [process_file_go, record_lines_go]
    split
    · cases hf : find_next_root_tlv s data off root_type with
      | none => simp [join_lines]
      | some p =>
        obtain ⟨tlv, new_off⟩ := p
        cases hw : write_root_tlv_with_type s wfuel tlv root_type with
        | none => simp [hw, join_lines]
        | some line => simp [hw, ih, join_lines]
    · simp [join_lines]

/-- Claim C2 (counterexample): the crafted input `FF 8F FF FF FE 00 00`
parses to a TLV of class PRIVATE with tag number `0xFFFFFF00 =
SYNTH_CHOICE_BASE`, so its tag key *is* a sentinel key; `write_choice` on the
`C ::= CHOICE (s S, t T)` table then dispatches it in the direct
candidate-match step (the structural probe would reject this tag — only the
direct `alts.get` can produce `("s": (empty SEQUENCE))`), and
`tlv_matches_root` accepts it through the same direct `contains_key`. -/
theorem c2_sentinel_counterexample :
    (parse_tlv [0xFF, 0x8F, 0xFF, 0xFF, 0xFE, 0x00, 0x00] 0).map
      (fun p => (p.1.tag_class, p.1.tag_num)) = some (3, SYNTH_CHOICE_BASE) ∧
    is_synth_choice_tag SYNTH_CHOICE_BASE = true ∧
    write_choice schemaSTC 10 altsC [0xFF, 0x8F, 0xFF, 0xFF, 0xFE, 0x00, 0x00] =
      "\x7b\"s\":\x7b\x7d\x7d" ∧
    (parse_tlv [0xFF, 0x8F, 0xFF, 0xFF, 0xFE, 0x00, 0x00] 0).map
      (fun p => tlv_matches_root schemaSTC p.1 "C") = some true := by
  decide

/-- Claim C2 (corrected): a parsed TLV whose tag number is below
`SYNTH_CHOICE_BASE` — every TLV whose tag encoding is not deliberately
crafted into the reserved range — never equals a sentinel key, in the direct
candidate-match step of `write_choice` or anywhere else. -/
theorem c2_sentinel_no_collision (data : List Nat) (offset : Nat) (tlv : Tlv)
    (next : Nat) (n : Nat)
    (_hp : parse_tlv data offset = some (tlv, next))
    (hlow : tlv.tag_num < SYNTH_CHOICE_BASE)
    (hs : is_synth_choice_tag n = true) :
    (tlv.tag_class, tlv.tag_num) ≠ (3, n) := by
  simp only [is_synth_choice_tag, decide_eq_true_eq] at hs
  intro hc
  simp only [Prod.mk.injEq] at hc
  omega

/-- Witness for `c2_sentinel_no_collision` at the INTEGER TLV `02 01 07`. -/
theorem c2_sentinel_no_collision_witness :
    ((⟨0, false, 2, 1, [0x07], [0x02, 0x01, 0x07]⟩ : Tlv).tag_class,
     (⟨0, false, 2, 1, [0x07], [0x02, 0x01, 0x07]⟩ : Tlv).tag_num) ≠
      (3, SYNTH_CHOICE_BASE) :=
  c2_sentinel_no_collision [0x02, 0x01, 0x07] 0
    ⟨0, false, 2, 1, [0x07], [0x02, 0x01, 0x07]⟩ 3 SYNTH_CHOICE_BASE
    (by decide) (by decide) (by decide)

/-- Claim C3 (counterexample): an empty input file produces *no* output file
— `process_file` returns before `File::create` (main.rs:948), refuting
"processing an empty input file still produces its (empty) .jsonl output
file". -/
theorem c3_empty_input_counterexample : process_file schemaL "L" [] = none := by
  decide

/-- Claim C3 (corrected): for every *non-empty* input, the output file is
written and contains exactly one JSON object per decoded record, each line
terminated by `\n`; the record count is the number of lines. -/
theorem c3_output_shape (s : Asn1Schema) (root_type : String) (data : List Nat)
    (hne : data ≠ []) :
    process_file s root_type data =
      some (join_lines (record_lines s root_type data),
            (record_lines s root_type data).length) := by
  rw [process_file, if_neg (fun hc => hne (List.length_eq_zero.mp hc))]
  rw [record_lines, process_file_go_spec]

/-- Witness for `c3_output_shape` on a one-byte input. -/
theorem c3_output_shape_witness :
    process_file schemaL "L" [0x00] =
      some (join_lines (record_lines schemaL "L" [0x00]),
            (record_lines schemaL "L" [0x00]).length) :=
  c3_output_shape schemaL "L" [0x00] (by decide)

set_option maxRecDepth 10000 in
/-- Claim C4 (counterexample): a CHOICE body with 256 untagged alternatives
is recorded in full — the compiler imposes no 255-alternative cap
(main.rs:258-269 has no bound on `idx`). -/
theorem c4_untagged_choice_counterexample :
    (build_untagged_alts (List.replicate 256 ("x", "T"))).length = 256 := by
  decide

/-- Claim C4 (corrected): when a CHOICE body has no tagged alternatives, the
fallback assigns each untagged alternative the synthetic key
`(PRIVATE, SYNTH_CHOICE_BASE + idx)` with `idx` counting kept alternatives in
declaration order, skipping the placeholders `isPdu` and `TRUE` — but with no
cap on their number (as long as at most 256 are kept, the keys do not even
wrap; the claimed "at most 255" bound does not exist in the code). -/
theorem c4_untagged_choice (pairs : List (String × String))
    (h : (pairs.filter untagged_alt_kept).length ≤ 256) :
    build_untagged_alts pairs =
      (List.enumFrom 0 (pairs.filter untagged_alt_kept)).map
        (fun e => ((3, SYNTH_CHOICE_BASE + e.1), e.2)) := by
  have hgo := build_untagged_alts_go_spec pairs 0 [] (by simpa using h) (by simp)
  simpa [build_untagged_alts] using hgo

/-- Witness for `c4_untagged_choice` on a four-alternative body with both
placeholders present. -/
theorem c4_untagged_choice_witness :
    build_untagged_alts [("a", "A"), ("isPdu", "B"), ("TRUE", "C"), ("b", "D")] =
      [((3, SYNTH_CHOICE_BASE), ("a", "A")),
       ((3, SYNTH_CHOICE_BASE + 1), ("b", "D"))] :=
  (c4_untagged_choice [("a", "A"), ("isPdu", "B"), ("TRUE", "C"), ("b", "D")]
    (by decide)).trans (by decide)

/-- Claim C5 (confirmed): with the compiled schema of
`L ::= SEQUENCE OF OCTET STRING` and root type `L`, decoding the single
indefinite-length record `30 80 04 01 11 04 01 22 00 00` emits exactly the
JSON line `["11","22"]`. -/
theorem c5_seq_of_indefinite :
    process_file schemaL "L"
      [0x30, 0x80, 0x04, 0x01, 0x11, 0x04, 0x01, 0x22, 0x00, 0x00] =
      some ("[\"11\",\"22\"]\n", 1) := by
  decide

/-- Claim C6 (confirmed): with the compiled schema of `S`, `T` and the
untagged `C ::= CHOICE (s S, t T)` and root type `C`, decoding the SET
record `31 05 80 03 07 08 09` emits exactly `("t": ("b":"070809"))`. -/
theorem c6_untagged_choice_set :
    process_file schemaSTC "C" [0x31, 0x05, 0x80, 0x03, 0x07, 0x08, 0x09] =
      some ("\x7b\"t\":\x7b\"b\":\"070809\"\x7d\x7d\n", 1) := by
  decide

/-- Claim C7 (code bug): on the 10-byte input
`04 88 FF FF FF FF FF FF FF F6` the declared length is `2^64 - 10`, which
overruns the buffer, yet the source's `usize` computation of
`offset + length` wraps to `0 ≤ 10`, passes the overrun check, and then
takes the slice `&data[10..0]` — a panic (a debug build already panics on
the overflowing addition).   The model with exact arithmetic returns `none`
there, which is what the claim (and the spec's soft-failure contract)
demands of the reader. -/
theorem c7_overflow_evaluation :
    parse_tlv_value_range_usize
      [0x04, 0x88, 0xFF, 0xFF, 0xFF, 0xFF, 0xFF, 0xFF, 0xFF, 0xF6] 0 =
      some (10, 0) ∧
    parse_tlv [0x04, 0x88, 0xFF, 0xFF, 0xFF, 0xFF, 0xFF, 0xFF, 0xFF, 0xF6] 0 =
      none := by
  decide

/-- Claim C8 (confirmed): inside a SEQUENCE/SET body, a parsed TLV whose tag
key is absent from the field table is emitted as the member
`"unknown_tag_<class>_<num>":"<content hex>"`, and the loop continues with
the remaining TLVs of the body at the next offset. -/
theorem c8_unknown_tag (s : Asn1Schema) (fuel : Nat)
    (field_spec : List (TagKey × FieldSpec)) (data : List Nat) (offset : Nat)
    (tlv : Tlv) (new_off : Nat)
    (hp : parse_tlv data offset = some (tlv, new_off))
    (hl : field_spec.lookup (tlv.tag_class, tlv.tag_num) = none) :
    seq_members s (fuel + 1) field_spec data offset =
      ("\"unknown_tag_" ++ Nat.repr tlv.tag_class ++ "_" ++ Nat.repr tlv.tag_num ++
        "\":" ++ write_hex_json tlv.value) ::
      seq_members s fuel field_spec data new_off := by
  obtain ⟨h1, h2, h3⟩ := parse_tlv_bounds data offset tlv new_off hp
  have h4 : ¬ new_off ≤ offset := by omega
  simp only [seq_members, hp, hl, if_pos h1, if_neg h4]

/-- Witness for `c8_unknown_tag`: the context-tagged TLV `85 01 2A` against
an empty field table. -/
theorem c8_unknown_tag_witness :
    seq_members schemaL 1 [] [0x85, 0x01, 0x2A] 0 =
      "\"unknown_tag_2_5\":\"2a\"" :: seq_members schemaL 0 [] [0x85, 0x01, 0x2A] 3 :=
  (c8_unknown_tag schemaL 0 [] [0x85, 0x01, 0x2A] 0
    ⟨2, false, 5, 1, [0x2A], [0x85, 0x01, 0x2A]⟩ 3 (by decide) (by decide)).trans
    (by decide)

lemma find_next_root_tlv_go_gt (s : Asn1Schema) (data : List Nat)
    (root_type : String) : ∀ (fuel start : Nat) (tlv : Tlv) (e : Nat),
    find_next_root_tlv_go s data root_type fuel start = some (tlv, e) →
    start < e := by
  intro fuel
  induction fuel with
  | zero => intro start tlv e h; exact absurd h (by simp [find_next_root_tlv_go])
  | succ f ih =>
    intro start tlv e h
    simp only [find_next_root_tlv_go] at h
    split at h
    · cases hp : parse_tlv data start with
      | none =>
        rw [hp] at h
        have := ih (start + 1) tlv e h
        omega
      | some p =>
        obtain ⟨t, e'⟩ := p
        rw [hp] at h
        simp only at h
        split at h
        · rename_i hcond
          simp only [Option.some.injEq, Prod.mk.injEq] at h
          obtain ⟨-, he⟩ := h
          omega
        · have := ih (start + 1) tlv e h
          omega
    · exact absurd h (by simp)

/-- Claim C9 (confirmed): the root scan makes progress on every input — a
returned TLV always ends strictly past the scan's start offset (so the
driver's cursor strictly increases from record to record), and a position
where no TLV parses or the parsed TLV fails to advance or match simply moves
the scan one byte forward. -/
theorem c9_root_scan (s : Asn1Schema) (data : List Nat) (start : Nat)
    (root_type : String) :
    (∀ (tlv : Tlv) (e : Nat),
       find_next_root_tlv s data start root_type = some (tlv, e) → start < e) ∧
    (start < data.length →
     (∀ (tlv : Tlv) (e : Nat), parse_tlv data start = some (tlv, e) →
        e ≤ start ∨ tlv_matches_root s tlv root_type = false) →
     find_next_root_tlv s data start root_type =
       find_next_root_tlv s data (start + 1) root_type) := by
  constructor
  · intro tlv e h
    exact find_next_root_tlv_go_gt s data root_type _ start tlv e h
  · intro hlt hno
    rw [find_next_root_tlv, find_next_root_tlv]
    have hfuel : data.length - start = (data.length - (start + 1)) + 1 := by omega
    rw [hfuel]
    simp only [find_next_root_tlv_go]
    rw [if_pos hlt]
    cases hp : parse_tlv data start with
    | none => rfl
    | some p =>
      obtain ⟨t, e⟩ := p
      have hcontra : ¬(start < e ∧ tlv_matches_root s t root_type = true) := by
        intro hcond
        rcases hno t e hp with hle | hfalse
        · omega
        · rw [hcond.2] at hfalse
          exact absurd hfalse (by simp)
      dsimp only
      rw [if_neg hcontra]

/-- Witness for `c9_root_scan`: both conjuncts at concrete scans — the first
applied to the record `30 01 AA` matching the `SEQUENCE OF` root `L`, the
second at an INTEGER TLV that does not match `L`. -/
theorem c9_root_scan_witness :
    (0 : Nat) < 3 ∧
    find_next_root_tlv schemaL [0x02, 0x01, 0x07, 0xFF] 0 "L" =
      find_next_root_tlv schemaL [0x02, 0x01, 0x07, 0xFF] 1 "L" := by
  constructor
  · exact (c9_root_scan schemaL [0x30, 0x01, 0xAA] 0 "L").1
      ⟨0, true, 16, 1, [0xAA], [0x30, 0x01, 0xAA]⟩ 3 (by decide)
  · refine (c9_root_scan schemaL [0x02, 0x01, 0x07, 0xFF] 0 "L").2 (by decide) ?_
    intro tlv e hp
    rw [show parse_tlv [0x02, 0x01, 0x07, 0xFF] 0 =
        some (⟨0, false, 2, 1, [0x07], [0x02, 0x01, 0x07]⟩, 3) from by decide] at hp
    simp only [Option.some.injEq, Prod.mk.injEq] at hp
    right
    rw [← hp.1]
    decide

/-- Claim C10 (confirmed): invoked on bytes from which no TLV can be parsed,
the CHOICE resolver emits the JSON literal `null` (not an
`unknown_alternative` object) and returns successfully. -/
theorem c10_choice_null (s : Asn1Schema) (fuel : Nat)
    (alts : List (TagKey × (String × String))) (data : List Nat)
    (hf : 0 < fuel) (hp : parse_tlv data 0 = none) :
    write_choice s fuel alts data = "null" := by
  cases fuel with
  | zero => omega
  | succ f => simp [write_choice, hp]

/-- Witness for `c10_choice_null` on the empty buffer. -/
theorem c10_choice_null_witness : write_choice schemaSTC 5 [] [] = "null" :=
  c10_choice_null schemaSTC 5 [] [] (by decide) (by decide)
